import Mathlib

/-!
# KubeHound: the asynchronous JanusGraph vertex writer

A shallow embedding of `pkg/kubehound/storage/graphdb/janusgraph_vertex_writer.go`.

* The Go struct `JanusGraphAsyncVertexWriter` is a record of its fields.  The mutex is not a
  field of the model: `Queue` and `Flush` hold it from entry to return, so each of them is one
  atomic transition of the writer.
* `consumerChan` is the FIFO sequence of batches that have been sent and not yet received; the
  channel is modelled while it is open (`Close` is the last operation of a writer).  A send on a
  full channel only delays the sender until the background goroutine receives, so the bound of
  the channel is not part of the state.
* `writingInFlight` is the counter of the `sync.WaitGroup`, an integer; `Add(1)` and `Done()`
  are `+ 1` and `- 1`.
* The Remote Sink (`jgv.gremlin(...).Iterate()`) is a parameter: it answers the `n`-th batch it
  is handed with success (`none`) or with an error.
* The goroutine of `startBackgroundWriter` is a component of the state (`Worker`); its loop is
  the two steps `workerRecv` and `workerComplete`; its `ctx.Done()` branch is `workerCancel`.
-/

namespace KubeHound

/-- A Go slice value: `nil`, or a non-nil slice holding `elems`. -/
inductive Slice (α : Type) where
  | nil : Slice α
  | mk (elems : List α) : Slice α
deriving DecidableEq, Repr

namespace Slice

/-- The elements of a slice; the nil slice has none. -/
def elems {α : Type} : Slice α → List α
  | nil => []
  | mk xs => xs

/-- Go `len(s)`. -/
def len {α : Type} (s : Slice α) : Nat := s.elems.length

/-- Go `append(s, v)`: the result is never nil. -/
def append {α : Type} (s : Slice α) (v : α) : Slice α := mk (s.elems ++ [v])

/-- Go `c := make([]T, len(s)); copy(c, s)`: a fresh non-nil slice with the elements of `s`. -/
def makeCopy {α : Type} (s : Slice α) : Slice α := mk s.elems

/-- Go `s == nil`. -/
def isNil {α : Type} : Slice α → Bool
  | nil => true
  | mk _ => false

end Slice

/-- A Go `error` value: one built by `errors.New`, or one returned by the Remote Sink. -/
inductive GoError where
  | errorsNew (msg : String) : GoError
  | sinkError (code : Nat) : GoError
deriving DecidableEq, Repr

/-- The value of `*gremlingo.GraphTraversalSource`; only its presence is inspected. -/
abbrev GraphTraversalSource : Type := Unit

/-- The fields of `JanusGraphAsyncVertexWriter`. -/
structure JanusGraphAsyncVertexWriter (α : Type) where
  /-- The pointer `traversalSource`; `none` is the nil pointer. -/
  traversalSource : Option GraphTraversalSource
  /-- The buffer of queued records. -/
  inserts : Slice α
  /-- The batches sent on the dispatch channel and not yet received, oldest first. -/
  consumerChan : List (Slice α)
  /-- The counter of the wait group. -/
  writingInFlight : Int
  /-- The configured batch size (a Go `int`). -/
  batchSize : Int
deriving DecidableEq, Repr

/-- `Queue`: append the record; when the buffer is longer than `batchSize`, copy it, add one to
the wait group, send the copy on the channel and reset the buffer to nil.  Always returns nil. -/
def Queue {α : Type} (jgv : JanusGraphAsyncVertexWriter α) (v : α) :
    JanusGraphAsyncVertexWriter α × Option GoError :=
  let jgv1 := { jgv with inserts := jgv.inserts.append v }
  if (jgv1.inserts.len : Int) > jgv1.batchSize then
    let copied := jgv1.inserts.makeCopy
    let jgv2 := { jgv1 with writingInFlight := jgv1.writingInFlight + 1 }
    let jgv3 := { jgv2 with consumerChan := jgv2.consumerChan ++ [copied] }
    ({ jgv3 with inserts := Slice.nil }, none)
  else
    (jgv1, none)

/-- Which goroutine handed a batch to the Remote Sink. -/
inductive Caller where
  | flush : Caller
  | background : Caller
deriving DecidableEq, Repr

/-- The Remote Sink: the answer to the `n`-th batch it is handed (`none` is success). -/
abbrev RemoteSink (α : Type) : Type := Nat → List α → Option GoError

/-- The goroutine of `startBackgroundWriter`: waiting on the channel, inside `batchWrite` with
the batch it received, or returned. -/
inductive Worker (α : Type) where
  | idle : Worker α
  | writing (data : Slice α) : Worker α
  | stopped : Worker α
deriving DecidableEq, Repr

/-- A writer together with its background goroutine and what it has sent out: the batches handed
to the Remote Sink, in order, and the errors passed to `log.I.Errorf`. -/
structure System (α : Type) where
  jgv : JanusGraphAsyncVertexWriter α
  worker : Worker α
  remote : List (Caller × List α)
  errorLog : List (Caller × GoError)
deriving DecidableEq, Repr

/-- `NewJanusGraphAsyncVertexWriter`: an empty non-nil buffer, a traversal source bound to the
connection, a zero wait group, an empty channel, and the background goroutine started.  (Both
`make` calls panic on a negative size, so a constructed writer has `batchSize ≥ 0`.) -/
def NewJanusGraphAsyncVertexWriter {α : Type} (batchSize : Int) : System α :=
  { jgv :=
      { traversalSource := some ()
        inserts := Slice.mk []
        consumerChan := []
        writingInFlight := 0
        batchSize := batchSize }
    worker := Worker.idle
    remote := []
    errorLog := [] }

/-- `batchWrite`: hand `data` to the Remote Sink, wait for its answer, and (deferred) call
`Done` on the wait group. -/
def batchWrite {α : Type} (sink : RemoteSink α) (who : Caller) (st : System α) (data : Slice α) :
    System α × Option GoError :=
  let err := sink st.remote.length data.elems
  ({ st with
      remote := st.remote ++ [(who, data.elems)]
      jgv := { st.jgv with writingInFlight := st.jgv.writingInFlight - 1 } }, err)

/-- The background goroutine receives from the channel: a nil value makes it return, any other
value is the batch it goes on to write.  `none`: it is not waiting, or the channel is empty. -/
def workerRecv {α : Type} (st : System α) : Option (System α) :=
  match st.worker, st.jgv.consumerChan with
  | Worker.idle, data :: rest =>
    let st1 := { st with jgv := { st.jgv with consumerChan := rest } }
    if data.isNil then some { st1 with worker := Worker.stopped }
    else some { st1 with worker := Worker.writing data }
  | _, _ => none

/-- The background goroutine completes `batchWrite` on the batch it holds, logs the error if
there is one, and goes back to waiting.  `none`: it holds no batch. -/
def workerComplete {α : Type} (sink : RemoteSink α) (st : System α) : Option (System α) :=
  match st.worker with
  | Worker.writing data =>
    match batchWrite sink Caller.background st data with
    | (st1, some err) =>
      some { st1 with worker := Worker.idle,
                      errorLog := st1.errorLog ++ [(Caller.background, err)] }
    | (st1, none) => some { st1 with worker := Worker.idle }
  | _ => none

/-- The background goroutine takes the `ctx.Done()` branch of its `select`: it returns and
leaves the channel as it is.  `none`: it is not waiting in the `select`. -/
def workerCancel {α : Type} (st : System α) : Option (System α) :=
  match st.worker with
  | Worker.idle => some { st with worker := Worker.stopped }
  | _ => none

/-- One step of the background goroutine, whichever is enabled. -/
def workerStep {α : Type} (sink : RemoteSink α) (st : System α) : Option (System α) :=
  match st.worker with
  | Worker.writing _ => workerComplete sink st
  | _ => workerRecv st

/-- `writingInFlight.Wait()` with the caller holding the lock: only the background goroutine
runs, until the counter is zero.  `none`: the counter is not zero and the goroutine can make no
step (the caller stays blocked), or the fuel is used up. -/
def waitFuel {α : Type} (sink : RemoteSink α) : Nat → System α → Option (System α)
  | 0, st => if st.jgv.writingInFlight = 0 then some st else none
  | n + 1, st =>
    if st.jgv.writingInFlight = 0 then some st
    else
      match workerStep sink st with
      | none => none
      | some st1 => waitFuel sink n st1

/-- The number of steps the background goroutine can still make: two for each batch in the
channel and one for a batch being written. -/
def pendingSteps {α : Type} (st : System α) : Nat :=
  2 * st.jgv.consumerChan.length +
    (match st.worker with
     | Worker.writing _ => 1
     | _ => 0)

/-- `Wait`, with as much fuel as the goroutine has steps left. -/
def Wait {α : Type} (sink : RemoteSink α) (st : System α) : Option (System α) :=
  waitFuel sink (pendingSteps st) st

/-- The error `Flush` builds when the traversal source is nil. -/
def errNotInitialized : GoError :=
  GoError.errorsNew "JanusGraph traversalSource is not initialized"

/-- `Flush`: fail when the traversal source is nil; otherwise write a non-empty buffer
synchronously (on failure log, wait and return the error; on success reset the buffer to nil),
then wait for the wait group.  `none`: `Wait` never returns. -/
def Flush {α : Type} (sink : RemoteSink α) (st : System α) :
    Option (System α × Option GoError) :=
  if st.jgv.traversalSource.isNone then
    some (st, some errNotInitialized)
  else if st.jgv.inserts.len ≠ 0 then
    let st1 := { st with jgv := { st.jgv with writingInFlight := st.jgv.writingInFlight + 1 } }
    match batchWrite sink Caller.flush st1 st1.jgv.inserts with
    | (st2, some err) =>
      let st3 := { st2 with errorLog := st2.errorLog ++ [(Caller.flush, err)] }
      (Wait sink st3).map (fun st4 => (st4, some err))
    | (st2, none) =>
      let st3 := { st2 with jgv := { st2.jgv with inserts := Slice.nil } }
      (Wait sink st3).map (fun st4 => (st4, none))
  else
    (Wait sink st).map (fun st1 => (st1, none))

/-- Queue the records of `vs` one after the other. -/
def queueAll {α : Type} (jgv : JanusGraphAsyncVertexWriter α) (vs : List α) :
    JanusGraphAsyncVertexWriter α :=
  vs.foldl (fun w v => (Queue w v).1) jgv

/-- The records of a sequence of batches, in order. -/
def records {α : Type} (batches : List (Slice α)) : List α :=
  (batches.map Slice.elems).flatten

/-- The batches `Flush` itself handed to the Remote Sink, in order. -/
def flushed {α : Type} (st : System α) : List (List α) :=
  (st.remote.filter (fun c => c.1 = Caller.flush)).map Prod.snd

/-- The number of batches the background goroutine is writing: one or none. -/
def writingCount {α : Type} (st : System α) : Nat :=
  match st.worker with
  | Worker.writing _ => 1
  | _ => 0

/-- The transitions of a writer: a `Queue` call, the background goroutine receiving a batch,
the background goroutine completing a write, and a `Flush` call that returns. -/
inductive Step {α : Type} (sink : RemoteSink α) : System α → System α → Prop where
  | queue (st : System α) (v : α) : Step sink st { st with jgv := (Queue st.jgv v).1 }
  | recv (st st1 : System α) : workerRecv st = some st1 → Step sink st st1
  | complete (st st1 : System α) : workerComplete sink st = some st1 → Step sink st st1
  | flush (st st1 : System α) (err : Option GoError) :
      Flush sink st = some (st1, err) → Step sink st st1

/-- The states a constructed writer can be in. -/
inductive Reachable {α : Type} (sink : RemoteSink α) : System α → Prop where
  | init (batchSize : Int) : Reachable sink (NewJanusGraphAsyncVertexWriter batchSize)
  | step (st st1 : System α) : Reachable sink st → Step sink st st1 → Reachable sink st1

/-- The accounting of the wait group: the counter is the number of batches in the channel plus
the number being written, no nil value is in the channel, and the goroutine has not returned. -/
def Accounted {α : Type} (st : System α) : Prop :=
  st.jgv.writingInFlight = (st.jgv.consumerChan.length : Int) + (writingCount st : Int) ∧
  (∀ d ∈ st.jgv.consumerChan, d.isNil = false) ∧
  st.worker ≠ Worker.stopped ∧
  (∀ d, st.worker = Worker.writing d → d.isNil = false)

/-- A sink that accepts every batch. -/
def sinkOk {α : Type} : RemoteSink α := fun _ _ => none

/-- A sink that rejects every batch with the same error. -/
def sinkFail {α : Type} (code : Nat) : RemoteSink α := fun _ _ => some (GoError.sinkError code)


/-- What the background goroutine leaves alone: the buffer, the traversal source, the batch
size and the batches written by `Flush`; of the channel it only removes values at the front. -/
def WorkerKeeps {α : Type} (st st1 : System α) : Prop :=
  st1.jgv.inserts = st.jgv.inserts ∧
  st1.jgv.traversalSource = st.jgv.traversalSource ∧
  st1.jgv.batchSize = st.jgv.batchSize ∧
  st1.jgv.consumerChan <:+ st.jgv.consumerChan ∧
  flushed st1 = flushed st

/-- The state in which `Flush` starts to wait after its synchronous write succeeded: the batch
is with the Remote Sink, `Add(1)` and `Done()` have both run, the buffer is nil. -/
def afterWriteOk {α : Type} (st : System α) : System α :=
  { st with
      jgv := { st.jgv with
                writingInFlight := st.jgv.writingInFlight + 1 - 1
                inserts := Slice.nil }
      remote := st.remote ++ [(Caller.flush, st.jgv.inserts.elems)] }

/-- The state in which `Flush` starts to wait after its synchronous write failed with `e`: the
batch was handed to the Remote Sink, `Add(1)` and `Done()` have both run, the error is logged
and the buffer is kept. -/
def afterWriteErr {α : Type} (st : System α) (e : GoError) : System α :=
  { st with
      jgv := { st.jgv with writingInFlight := st.jgv.writingInFlight + 1 - 1 }
      remote := st.remote ++ [(Caller.flush, st.jgv.inserts.elems)]
      errorLog := st.errorLog ++ [(Caller.flush, e)] }

/-- The calls of several callers merged into one sequence: `Interleaving callers calls` holds
when `calls` takes, one at a time, the next call of some caller until every caller is done. -/
inductive Interleaving {α : Type} : List (List α) → List α → Prop where
  | done (callers : List (List α)) : (∀ c ∈ callers, c = []) → Interleaving callers []
  | call (before after : List (List α)) (r : α) (c calls : List α) :
      Interleaving (before ++ c :: after) calls →
      Interleaving (before ++ (r :: c) :: after) (r :: calls)

/-- A writer with `batchSize = 1` on which 1, 2, 3 were queued: the batch [1, 2] is in the
channel and 3 is in the buffer. -/
def sampleQueued : System Nat :=
  { NewJanusGraphAsyncVertexWriter 1 with
      jgv := queueAll (NewJanusGraphAsyncVertexWriter 1).jgv [1, 2, 3] }

/-- The state `Flush` leaves from `sampleQueued` when the Remote Sink accepts both batches. -/
def sampleFlushed : System Nat :=
  { NewJanusGraphAsyncVertexWriter 1 with
      jgv := { (NewJanusGraphAsyncVertexWriter 1).jgv with inserts := Slice.nil }
      remote := [(Caller.flush, [3]), (Caller.background, [1, 2])] }

/-- A writer with `batchSize = 5` on which 1, 2 were queued: both are in the buffer. -/
def sampleBuffered : System Nat :=
  { NewJanusGraphAsyncVertexWriter 5 with
      jgv := (Queue (Queue (NewJanusGraphAsyncVertexWriter 5).jgv 1).1 2).1 }

/-- A writer with `batchSize = 0` after `Queue` of 7 and the receive of the background
goroutine: the batch [7] is being written. -/
def sampleWriting : System Nat :=
  { NewJanusGraphAsyncVertexWriter 0 with
      jgv := { (NewJanusGraphAsyncVertexWriter 0).jgv with
                inserts := Slice.nil, writingInFlight := 1 }
      worker := Worker.writing (Slice.mk [7]) }

/-- A writer built without a traversal source, with `batchSize = 5`. -/
def sampleUninitialized : System Nat :=
  { jgv := { traversalSource := none, inserts := Slice.nil, consumerChan := [],
             writingInFlight := 0, batchSize := 5 }
    worker := Worker.idle
    remote := []
    errorLog := [] }

/-- The state `Flush` leaves after the calls 1, 3, 2 on a fresh writer with `batchSize = 1`,
the Remote Sink accepting both batches. -/
def sampleInterleaved : System Nat :=
  { NewJanusGraphAsyncVertexWriter 1 with
      jgv := { (NewJanusGraphAsyncVertexWriter 1).jgv with inserts := Slice.nil }
      remote := [(Caller.flush, [2]), (Caller.background, [1, 3])] }

/-- The writer of `sampleQueued` after the context was cancelled: the background goroutine has
returned, the batch [1, 2] is still in the channel and 3 is in the buffer. -/
def sampleCancelled : System Nat :=
  { sampleQueued with worker := Worker.stopped }

/-! ## Slices -/

theorem Slice.elems_mk {α : Type} (xs : List α) : (Slice.mk xs).elems = xs := rfl

theorem Slice.elems_nil {α : Type} : (Slice.nil : Slice α).elems = [] := rfl

theorem Slice.len_eq {α : Type} (s : Slice α) : s.len = s.elems.length := rfl

/-! ## `Queue` -/

theorem Queue_fst_eq {α : Type} (jgv : JanusGraphAsyncVertexWriter α) (v : α) :
    (Queue jgv v).1 =
      if (jgv.inserts.len : Int) + 1 > jgv.batchSize then
        { jgv with
            inserts := Slice.nil
            consumerChan := jgv.consumerChan ++ [Slice.mk (jgv.inserts.elems ++ [v])]
            writingInFlight := jgv.writingInFlight + 1 }
      else { jgv with inserts := Slice.mk (jgv.inserts.elems ++ [v]) } := by
  unfold Queue
  simp only [Slice.append, Slice.len, Slice.elems, Slice.makeCopy, List.length_append,
    List.length_singleton, Nat.cast_add, Nat.cast_one]
  split <;> rfl

theorem Queue_snd_eq {α : Type} (jgv : JanusGraphAsyncVertexWriter α) (v : α) :
    (Queue jgv v).2 = none := by
  unfold Queue
  dsimp only
  split <;> rfl

/-- C1: `Queue` returns no error; while the buffer with the new record is not longer than
`batchSize` the record is only appended (channel and counter untouched); once it is longer,
exactly the one batch `b ++ [r]` is sent, the counter grows by one and the buffer is reset.
With `batchSize = 2`, queueing A, B, C sends nothing on the first two calls and the single
batch [A, B, C] on the third. -/
theorem Queue_contract {α : Type} (jgv : JanusGraphAsyncVertexWriter α) (r : α) :
    (Queue jgv r).2 = none ∧
    ((jgv.inserts.len : Int) + 1 ≤ jgv.batchSize →
      (Queue jgv r).1.inserts.elems = jgv.inserts.elems ++ [r] ∧
      (Queue jgv r).1.consumerChan = jgv.consumerChan ∧
      (Queue jgv r).1.writingInFlight = jgv.writingInFlight) ∧
    ((jgv.inserts.len : Int) + 1 > jgv.batchSize →
      (Queue jgv r).1.consumerChan = jgv.consumerChan ++ [Slice.mk (jgv.inserts.elems ++ [r])] ∧
      (Queue jgv r).1.writingInFlight = jgv.writingInFlight + 1 ∧
      (Queue jgv r).1.inserts.elems = []) ∧
    (Queue jgv r).1.batchSize = jgv.batchSize ∧
    (Queue jgv r).1.traversalSource = jgv.traversalSource ∧
    (∀ A B C : α,
      (queueAll (NewJanusGraphAsyncVertexWriter 2).jgv [A]).consumerChan = [] ∧
      (queueAll (NewJanusGraphAsyncVertexWriter 2).jgv [A, B]).consumerChan = [] ∧
      (queueAll (NewJanusGraphAsyncVertexWriter 2).jgv [A, B, C]).consumerChan
        = [Slice.mk [A, B, C]] ∧
      (queueAll (NewJanusGraphAsyncVertexWriter 2).jgv [A, B, C]).inserts.elems = [] ∧
      (queueAll (NewJanusGraphAsyncVertexWriter 2).jgv [A, B, C]).writingInFlight = 1) := by
  refine ⟨Queue_snd_eq jgv r, ?_, ?_, ?_, ?_, ?_⟩
  · intro h
    rw [Queue_fst_eq, if_neg (by omega)]
    exact ⟨rfl, rfl, rfl⟩
  · intro h
    rw [Queue_fst_eq, if_pos h]
    exact ⟨rfl, rfl, rfl⟩
  · rw [Queue_fst_eq]; split <;> rfl
  · rw [Queue_fst_eq]; split <;> rfl
  · intro A B C
    simp [queueAll, Queue_fst_eq, NewJanusGraphAsyncVertexWriter, Slice.len, Slice.elems]

/-- C1, at concrete writers: below the threshold (`batchSize = 2`, empty buffer) and above it
(`batchSize = 1`, one record buffered). -/
theorem Queue_contract_witness :
    ((((NewJanusGraphAsyncVertexWriter (α := Nat) 2).jgv.inserts.len : Int) + 1
        ≤ (NewJanusGraphAsyncVertexWriter (α := Nat) 2).jgv.batchSize) ∧
      (Queue (NewJanusGraphAsyncVertexWriter (α := Nat) 2).jgv 7).1.inserts.elems = [7]) ∧
    ((((Queue (NewJanusGraphAsyncVertexWriter (α := Nat) 1).jgv 7).1.inserts.len : Int) + 1
        > (Queue (NewJanusGraphAsyncVertexWriter (α := Nat) 1).jgv 7).1.batchSize) ∧
      (Queue (Queue (NewJanusGraphAsyncVertexWriter (α := Nat) 1).jgv 7).1 8).1.consumerChan
        = [Slice.mk [7, 8]]) :=
  ⟨⟨by decide,
    ((Queue_contract (NewJanusGraphAsyncVertexWriter (α := Nat) 2).jgv 7).2.1 (by decide)).1⟩,
   ⟨by decide,
    ((Queue_contract (Queue (NewJanusGraphAsyncVertexWriter (α := Nat) 1).jgv 7).1 8).2.2.1
      (by decide)).1⟩⟩

/-! ## The background goroutine and `Wait` -/

theorem workerRecv_some {α : Type} {st st1 : System α} (h : workerRecv st = some st1) :
    ∃ data rest, st.worker = Worker.idle ∧ st.jgv.consumerChan = data :: rest ∧
      st1 = { st with
                jgv := { st.jgv with consumerChan := rest }
                worker := if data.isNil then Worker.stopped else Worker.writing data } := by
  unfold workerRecv at h
  split at h
  · next data rest hw hc =>
    refine ⟨data, rest, hw, hc, ?_⟩
    dsimp only at h
    split at h <;> simp_all
  · cases h

theorem workerComplete_some {α : Type} {sink : RemoteSink α} {st st1 : System α}
    (h : workerComplete sink st = some st1) :
    ∃ data, st.worker = Worker.writing data ∧
      st1 = { st with
                jgv := { st.jgv with writingInFlight := st.jgv.writingInFlight - 1 }
                worker := Worker.idle
                remote := st.remote ++ [(Caller.background, data.elems)]
                errorLog :=
                  match sink st.remote.length data.elems with
                  | some err => st.errorLog ++ [(Caller.background, err)]
                  | none => st.errorLog } := by
  unfold workerComplete at h
  split at h
  · next data hw =>
    refine ⟨data, hw, ?_⟩
    simp only [batchWrite] at h
    cases hs : sink st.remote.length data.elems <;> simp_all
  · cases h

theorem workerStep_some {α : Type} {sink : RemoteSink α} {st st1 : System α}
    (h : workerStep sink st = some st1) :
    workerRecv st = some st1 ∨ workerComplete sink st = some st1 := by
  unfold workerStep at h
  split at h
  · exact Or.inr h
  · exact Or.inl h

theorem WorkerKeeps.refl {α : Type} (st : System α) : WorkerKeeps st st :=
  ⟨rfl, rfl, rfl, List.suffix_refl _, rfl⟩

theorem WorkerKeeps.trans {α : Type} {a b c : System α} (h1 : WorkerKeeps a b)
    (h2 : WorkerKeeps b c) : WorkerKeeps a c :=
  ⟨h2.1.trans h1.1, h2.2.1.trans h1.2.1, h2.2.2.1.trans h1.2.2.1,
    h2.2.2.2.1.trans h1.2.2.2.1, h2.2.2.2.2.trans h1.2.2.2.2⟩

theorem workerStep_keeps {α : Type} {sink : RemoteSink α} {st st1 : System α}
    (h : workerStep sink st = some st1) : WorkerKeeps st st1 := by
  rcases workerStep_some h with h | h
  · obtain ⟨data, rest, _, hc, rfl⟩ := workerRecv_some h
    refine ⟨rfl, rfl, rfl, ?_, rfl⟩
    rw [hc]
    exact List.suffix_cons data rest
  · obtain ⟨data, _, rfl⟩ := workerComplete_some h
    refine ⟨rfl, rfl, rfl, List.suffix_refl _, ?_⟩
    simp [flushed, List.filter_append]

theorem workerStep_pendingSteps {α : Type} {sink : RemoteSink α} {st st1 : System α}
    (h : workerStep sink st = some st1) : pendingSteps st1 + 1 ≤ pendingSteps st := by
  rcases workerStep_some h with h | h
  · obtain ⟨data, rest, hw, hc, rfl⟩ := workerRecv_some h
    simp only [pendingSteps, hw, hc, List.length_cons]
    split <;> omega
  · obtain ⟨data, hw, rfl⟩ := workerComplete_some h
    simp only [pendingSteps, hw]
    omega

theorem workerStep_none_of_pendingSteps {α : Type} {sink : RemoteSink α} {st : System α}
    (h : pendingSteps st = 0) : workerStep sink st = none := by
  cases hs : workerStep sink st with
  | none => rfl
  | some st1 => have := workerStep_pendingSteps hs; omega

/-- Fuel beyond the number of steps the goroutine has left changes nothing: `none` from `Wait`
means that the caller stays blocked, never that the fuel ran out. -/
theorem waitFuel_stable {α : Type} (sink : RemoteSink α) (n : Nat) :
    ∀ (st : System α) (m : Nat), pendingSteps st ≤ n → n ≤ m →
      waitFuel sink m st = waitFuel sink n st := by
  induction n with
  | zero =>
    intro st m hp _
    have hnone : workerStep sink st = none := workerStep_none_of_pendingSteps (by omega)
    cases m with
    | zero => rfl
    | succ k => simp [waitFuel, hnone]
  | succ n ih =>
    intro st m hp hm
    obtain ⟨k, rfl⟩ : ∃ k, m = k + 1 := ⟨m - 1, by omega⟩
    simp only [waitFuel]
    split
    · rfl
    · cases hs : workerStep sink st with
      | none => rfl
      | some st1 =>
        have := workerStep_pendingSteps hs
        exact ih st1 k (by omega) (by omega)

theorem Wait_eq_waitFuel {α : Type} (sink : RemoteSink α) (st : System α) (m : Nat)
    (h : pendingSteps st ≤ m) : waitFuel sink m st = Wait sink st :=
  waitFuel_stable sink (pendingSteps st) st m (le_refl _) h

theorem waitFuel_some {α : Type} (sink : RemoteSink α) (n : Nat) :
    ∀ (st st1 : System α), waitFuel sink n st = some st1 →
      st1.jgv.writingInFlight = 0 ∧ WorkerKeeps st st1 := by
  induction n with
  | zero =>
    intro st st1 h
    simp only [waitFuel] at h
    split at h
    · next h0 => cases h; exact ⟨h0, WorkerKeeps.refl _⟩
    · cases h
  | succ n ih =>
    intro st st1 h
    simp only [waitFuel] at h
    split at h
    · next h0 => cases h; exact ⟨h0, WorkerKeeps.refl _⟩
    · cases hs : workerStep sink st with
      | none => rw [hs] at h; cases h
      | some st2 =>
        rw [hs] at h
        obtain ⟨h0, hk⟩ := ih st2 st1 h
        exact ⟨h0, (workerStep_keeps hs).trans hk⟩

theorem Wait_some {α : Type} {sink : RemoteSink α} {st st1 : System α}
    (h : Wait sink st = some st1) : st1.jgv.writingInFlight = 0 ∧ WorkerKeeps st st1 :=
  waitFuel_some sink _ st st1 h

theorem Wait_of_zero {α : Type} (sink : RemoteSink α) (st : System α)
    (h : st.jgv.writingInFlight = 0) : Wait sink st = some st := by
  unfold Wait
  cases pendingSteps st <;> simp [waitFuel, h]
/-! ## `Flush`, path by path -/

theorem Flush_uninitialized {α : Type} (sink : RemoteSink α) (st : System α)
    (h : st.jgv.traversalSource = none) : Flush sink st = some (st, some errNotInitialized) := by
  simp [Flush, h]

theorem Flush_empty {α : Type} (sink : RemoteSink α) (st : System α)
    (hts : st.jgv.traversalSource ≠ none) (hlen : st.jgv.inserts.len = 0) :
    Flush sink st = (Wait sink st).map (fun st1 => (st1, none)) := by
  have : st.jgv.traversalSource.isNone = false := by
    cases hs : st.jgv.traversalSource <;> simp_all
  simp [Flush, this, hlen]

theorem Flush_write_ok {α : Type} (sink : RemoteSink α) (st : System α)
    (hts : st.jgv.traversalSource ≠ none) (hlen : st.jgv.inserts.len ≠ 0)
    (hsink : sink st.remote.length st.jgv.inserts.elems = none) :
    Flush sink st = (Wait sink (afterWriteOk st)).map (fun st1 => (st1, none)) := by
  have : st.jgv.traversalSource.isNone = false := by
    cases hs : st.jgv.traversalSource <;> simp_all
  simp [Flush, this, hlen, batchWrite, hsink, afterWriteOk]

theorem Flush_write_err {α : Type} (sink : RemoteSink α) (st : System α) (e : GoError)
    (hts : st.jgv.traversalSource ≠ none) (hlen : st.jgv.inserts.len ≠ 0)
    (hsink : sink st.remote.length st.jgv.inserts.elems = some e) :
    Flush sink st = (Wait sink (afterWriteErr st e)).map (fun st1 => (st1, some e)) := by
  have : st.jgv.traversalSource.isNone = false := by
    cases hs : st.jgv.traversalSource <;> simp_all
  simp [Flush, this, hlen, batchWrite, hsink, afterWriteErr]

/-- The four ways in which `Flush` returns. -/
theorem Flush_cases {α : Type} {sink : RemoteSink α} {st st1 : System α} {err : Option GoError}
    (h : Flush sink st = some (st1, err)) :
    (st.jgv.traversalSource = none ∧ st1 = st ∧ err = some errNotInitialized) ∨
    (st.jgv.traversalSource ≠ none ∧ st.jgv.inserts.len = 0 ∧
      Wait sink st = some st1 ∧ err = none) ∨
    (st.jgv.traversalSource ≠ none ∧ st.jgv.inserts.len ≠ 0 ∧
      sink st.remote.length st.jgv.inserts.elems = none ∧
      Wait sink (afterWriteOk st) = some st1 ∧ err = none) ∨
    (∃ e, st.jgv.traversalSource ≠ none ∧ st.jgv.inserts.len ≠ 0 ∧
      sink st.remote.length st.jgv.inserts.elems = some e ∧
      Wait sink (afterWriteErr st e) = some st1 ∧ err = some e) := by
  by_cases hts : st.jgv.traversalSource = none
  · rw [Flush_uninitialized sink st hts] at h
    simp only [Option.some.injEq, Prod.mk.injEq] at h
    exact Or.inl ⟨hts, h.1.symm, h.2.symm⟩
  · by_cases hlen : st.jgv.inserts.len = 0
    · rw [Flush_empty sink st hts hlen] at h
      simp only [Option.map_eq_some', Prod.mk.injEq] at h
      obtain ⟨w, hw, rfl, rfl⟩ := h
      exact Or.inr (Or.inl ⟨hts, hlen, hw, rfl⟩)
    · cases hsink : sink st.remote.length st.jgv.inserts.elems with
      | none =>
        rw [Flush_write_ok sink st hts hlen hsink] at h
        simp only [Option.map_eq_some', Prod.mk.injEq] at h
        obtain ⟨w, hw, rfl, rfl⟩ := h
        exact Or.inr (Or.inr (Or.inl ⟨hts, hlen, rfl, hw, rfl⟩))
      | some e =>
        rw [Flush_write_err sink st e hts hlen hsink] at h
        simp only [Option.map_eq_some', Prod.mk.injEq] at h
        obtain ⟨w, hw, rfl, rfl⟩ := h
        exact Or.inr (Or.inr (Or.inr ⟨e, hts, hlen, rfl, hw, rfl⟩))

/-! ## The accounting of the wait group -/

theorem accounted_new {α : Type} (batchSize : Int) :
    Accounted (NewJanusGraphAsyncVertexWriter (α := α) batchSize) := by
  simp [Accounted, NewJanusGraphAsyncVertexWriter, writingCount]

theorem accounted_queue {α : Type} {st : System α} (h : Accounted st) (v : α) :
    Accounted { st with jgv := (Queue st.jgv v).1 } := by
  obtain ⟨h1, h2, h3, h4⟩ := h
  rw [Queue_fst_eq]
  split
  · refine ⟨?_, ?_, h3, h4⟩
    · simp only [writingCount] at h1 ⊢
      simp only [List.length_append, List.length_singleton, Nat.cast_add, Nat.cast_one]
      omega
    · intro d hd
      simp only [List.mem_append, List.mem_singleton] at hd
      rcases hd with hd | rfl
      · exact h2 d hd
      · rfl
  · exact ⟨h1, h2, h3, h4⟩

theorem accounted_workerStep {α : Type} {sink : RemoteSink α} {st st1 : System α}
    (h : Accounted st) (hs : workerStep sink st = some st1) : Accounted st1 := by
  obtain ⟨h1, h2, h3, h4⟩ := h
  rcases workerStep_some hs with hs | hs
  · obtain ⟨data, rest, hw, hc, rfl⟩ := workerRecv_some hs
    have hd : data.isNil = false := h2 data (by rw [hc]; exact List.mem_cons_self _ _)
    simp only [writingCount, hw, hc, List.length_cons] at h1
    refine ⟨?_, ?_, ?_, ?_⟩
    · simp only [writingCount, hd]
      simp only [Bool.false_eq_true, if_false]
      push_cast at h1 ⊢
      omega
    · intro d hdm
      exact h2 d (by rw [hc]; exact List.mem_cons_of_mem _ hdm)
    · simp [hd]
    · intro d hdw
      simp only [hd, Bool.false_eq_true, if_false, Worker.writing.injEq] at hdw
      rw [← hdw]; exact hd
  · obtain ⟨data, hw, rfl⟩ := workerComplete_some hs
    simp only [writingCount, hw] at h1
    refine ⟨?_, h2, ?_, ?_⟩
    · simp only [writingCount]
      push_cast at h1 ⊢
      omega
    · simp
    · intro d hdw
      cases hdw

theorem accounted_idle_of_zero {α : Type} {st : System α} (h : Accounted st)
    (h0 : st.jgv.writingInFlight = 0) :
    st.jgv.consumerChan = [] ∧ st.worker = Worker.idle := by
  obtain ⟨h1, _, h3, _⟩ := h
  rw [h0] at h1
  cases hw : st.worker with
  | idle =>
    simp only [writingCount, hw] at h1
    refine ⟨List.length_eq_zero.mp ?_, rfl⟩
    omega
  | writing d =>
    simp only [writingCount, hw] at h1
    omega
  | stopped => exact absurd hw h3

theorem accounted_waitFuel {α : Type} (sink : RemoteSink α) (n : Nat) :
    ∀ st : System α, Accounted st → pendingSteps st ≤ n →
      ∃ st1, waitFuel sink n st = some st1 ∧ Accounted st1 := by
  induction n with
  | zero =>
    intro st h hp
    have hc : st.jgv.consumerChan = [] := by
      simp only [pendingSteps] at hp
      exact List.length_eq_zero.mp (by omega)
    have hw : writingCount st = 0 := by
      simp only [pendingSteps] at hp
      simp only [writingCount]
      split <;> simp_all
    have h0 : st.jgv.writingInFlight = 0 := by
      rw [h.1, hc, hw]; rfl
    exact ⟨st, by simp [waitFuel, h0], h⟩
  | succ n ih =>
    intro st h hp
    by_cases h0 : st.jgv.writingInFlight = 0
    · exact ⟨st, by simp [waitFuel, h0], h⟩
    · have hstep : ∃ st2, workerStep sink st = some st2 := by
        obtain ⟨h1, h2, h3, _⟩ := h
        cases hw : st.worker with
        | idle =>
          cases hc : st.jgv.consumerChan with
          | nil =>
            simp only [writingCount, hw, hc] at h1
            exact absurd (by simpa using h1) h0
          | cons d rest =>
            simp [workerStep, workerRecv, hw, hc]
            split <;> simp
        | writing d =>
          simp only [workerStep, workerComplete, hw, batchWrite]
          split <;> simp
        | stopped => exact absurd hw h3
      obtain ⟨st2, hs⟩ := hstep
      have hp2 := workerStep_pendingSteps hs
      obtain ⟨st1, hw1, ha1⟩ := ih st2 (accounted_workerStep h hs) (by omega)
      exact ⟨st1, by simp [waitFuel, h0, hs, hw1], ha1⟩

theorem accounted_Wait {α : Type} (sink : RemoteSink α) {st : System α} (h : Accounted st) :
    ∃ st1, Wait sink st = some st1 ∧ Accounted st1 :=
  accounted_waitFuel sink _ st h (le_refl _)

theorem accounted_afterWriteOk {α : Type} {st : System α} (h : Accounted st) :
    Accounted (afterWriteOk st) := by
  obtain ⟨h1, h2, h3, h4⟩ := h
  refine ⟨?_, h2, h3, h4⟩
  simp only [afterWriteOk, writingCount] at h1 ⊢
  omega

theorem accounted_afterWriteErr {α : Type} {st : System α} (h : Accounted st) (e : GoError) :
    Accounted (afterWriteErr st e) := by
  obtain ⟨h1, h2, h3, h4⟩ := h
  refine ⟨?_, h2, h3, h4⟩
  simp only [afterWriteErr, writingCount] at h1 ⊢
  omega

theorem accounted_Flush {α : Type} {sink : RemoteSink α} {st st1 : System α}
    {err : Option GoError} (h : Accounted st) (hf : Flush sink st = some (st1, err)) :
    Accounted st1 := by
  rcases Flush_cases hf with ⟨_, rfl, _⟩ | ⟨_, _, hw, _⟩ | ⟨_, _, _, hw, _⟩ | ⟨e, _, _, _, hw, _⟩
  · exact h
  · obtain ⟨st2, hw2, ha⟩ := accounted_Wait sink h
    rw [hw] at hw2; cases hw2; exact ha
  · obtain ⟨st2, hw2, ha⟩ := accounted_Wait sink (accounted_afterWriteOk h)
    rw [hw] at hw2; cases hw2; exact ha
  · obtain ⟨st2, hw2, ha⟩ := accounted_Wait sink (accounted_afterWriteErr h e)
    rw [hw] at hw2; cases hw2; exact ha

/-- From a state with sound accounting `Flush` does return. -/
theorem accounted_Flush_returns {α : Type} (sink : RemoteSink α) {st : System α}
    (h : Accounted st) : ∃ st1 err, Flush sink st = some (st1, err) := by
  by_cases hts : st.jgv.traversalSource = none
  · exact ⟨st, _, Flush_uninitialized sink st hts⟩
  · by_cases hlen : st.jgv.inserts.len = 0
    · obtain ⟨st1, hw, _⟩ := accounted_Wait sink h
      exact ⟨st1, none, by rw [Flush_empty sink st hts hlen, hw]; rfl⟩
    · cases hsink : sink st.remote.length st.jgv.inserts.elems with
      | none =>
        obtain ⟨st1, hw, _⟩ := accounted_Wait sink (accounted_afterWriteOk h)
        exact ⟨st1, none, by rw [Flush_write_ok sink st hts hlen hsink, hw]; rfl⟩
      | some e =>
        obtain ⟨st1, hw, _⟩ := accounted_Wait sink (accounted_afterWriteErr h e)
        exact ⟨st1, some e, by rw [Flush_write_err sink st e hts hlen hsink, hw]; rfl⟩

theorem workerStep_of_recv {α : Type} (sink : RemoteSink α) {st st1 : System α}
    (h : workerRecv st = some st1) : workerStep sink st = some st1 := by
  obtain ⟨d, r, hw, _, _⟩ := workerRecv_some h
  simp only [workerStep, hw]; exact h

theorem workerStep_of_complete {α : Type} {sink : RemoteSink α} {st st1 : System α}
    (h : workerComplete sink st = some st1) : workerStep sink st = some st1 := by
  obtain ⟨d, hw, _⟩ := workerComplete_some h
  simp only [workerStep, hw]; exact h

theorem accounted_step {α : Type} {sink : RemoteSink α} {st st1 : System α}
    (h : Accounted st) (hs : Step sink st st1) : Accounted st1 := by
  cases hs with
  | queue v => exact accounted_queue h v
  | recv _ hr => exact accounted_workerStep h (workerStep_of_recv sink hr)
  | complete _ hc => exact accounted_workerStep h (workerStep_of_complete hc)
  | flush _ err hf => exact accounted_Flush h hf

theorem reachable_accounted {α : Type} {sink : RemoteSink α} {st : System α}
    (h : Reachable sink st) : Accounted st := by
  induction h with
  | init batchSize => exact accounted_new batchSize
  | step st st1 _ hs ih => exact accounted_step ih hs

theorem reachable_initialized {α : Type} {sink : RemoteSink α} {st : System α}
    (h : Reachable sink st) : st.jgv.traversalSource ≠ none := by
  induction h with
  | init batchSize => simp [NewJanusGraphAsyncVertexWriter]
  | step st st1 _ hs ih =>
    cases hs with
    | queue v => rw [Queue_fst_eq]; split <;> exact ih
    | recv _ hr => rw [(workerStep_keeps (workerStep_of_recv sink hr)).2.1]; exact ih
    | complete _ hc => rw [(workerStep_keeps (workerStep_of_complete hc)).2.1]; exact ih
    | flush _ err hf =>
      rcases Flush_cases hf with ⟨_, rfl, _⟩ | ⟨_, _, hw, _⟩ | ⟨_, _, _, hw, _⟩ | ⟨e, _, _, _, hw, _⟩
      · exact ih
      · rw [(Wait_some hw).2.2.1]; exact ih
      · rw [(Wait_some hw).2.2.1]; exact ih
      · rw [(Wait_some hw).2.2.1]; exact ih
/-! ## What `Flush` leaves behind -/

theorem flushed_afterWriteOk {α : Type} (st : System α) :
    flushed (afterWriteOk st) = flushed st ++ [st.jgv.inserts.elems] := by
  simp [flushed, afterWriteOk, List.filter_append]

theorem flushed_afterWriteErr {α : Type} (st : System α) (e : GoError) :
    flushed (afterWriteErr st e) = flushed st ++ [st.jgv.inserts.elems] := by
  simp [flushed, afterWriteErr, List.filter_append]

/-- When `Flush` returns on a writer with a traversal source, the channel has only lost values
at its front and the batches written by `Flush` have grown by the buffer, if it was not empty. -/
theorem Flush_effect {α : Type} {sink : RemoteSink α} {st st1 : System α} {err : Option GoError}
    (hts : st.jgv.traversalSource ≠ none) (h : Flush sink st = some (st1, err)) :
    st1.jgv.consumerChan <:+ st.jgv.consumerChan ∧
    flushed st1 = flushed st ++ (if st.jgv.inserts.len ≠ 0 then [st.jgv.inserts.elems] else []) ∧
    st1.jgv.writingInFlight = 0 := by
  rcases Flush_cases h with ⟨hn, _, _⟩ | ⟨_, hl, hw, _⟩ | ⟨_, hl, _, hw, _⟩ | ⟨e, _, hl, _, hw, _⟩
  · exact absurd hn hts
  · obtain ⟨h0, hk⟩ := Wait_some hw
    exact ⟨hk.2.2.2.1, by rw [hk.2.2.2.2]; simp [hl], h0⟩
  · obtain ⟨h0, hk⟩ := Wait_some hw
    exact ⟨hk.2.2.2.1, by rw [hk.2.2.2.2, flushed_afterWriteOk]; simp [hl], h0⟩
  · obtain ⟨h0, hk⟩ := Wait_some hw
    exact ⟨hk.2.2.2.1, by rw [hk.2.2.2.2, flushed_afterWriteErr]; simp [hl], h0⟩
/-! ## Sequences of `Queue` calls -/

theorem queueAll_cons {α : Type} (jgv : JanusGraphAsyncVertexWriter α) (v : α) (vs : List α) :
    queueAll jgv (v :: vs) = queueAll (Queue jgv v).1 vs := rfl

theorem records_append {α : Type} (a b : List (Slice α)) :
    records (a ++ b) = records a ++ records b := by
  simp [records]

theorem Queue_records {α : Type} (jgv : JanusGraphAsyncVertexWriter α) (v : α) :
    records (Queue jgv v).1.consumerChan ++ (Queue jgv v).1.inserts.elems
      = records jgv.consumerChan ++ jgv.inserts.elems ++ [v] := by
  rw [Queue_fst_eq]
  split
  · simp [records, Slice.elems]
  · simp [Slice.elems]

/-- Nothing is lost, duplicated or reordered by `Queue`: the batches in the channel followed
by the buffer grow by exactly the queued records, in order. -/
theorem queueAll_records {α : Type} (vs : List α) :
    ∀ jgv : JanusGraphAsyncVertexWriter α,
      records (queueAll jgv vs).consumerChan ++ (queueAll jgv vs).inserts.elems
        = records jgv.consumerChan ++ jgv.inserts.elems ++ vs := by
  induction vs with
  | nil => intro jgv; simp [queueAll]
  | cons v vs ih =>
    intro jgv
    rw [queueAll_cons, ih, Queue_records]
    simp

theorem Queue_full_batches {α : Type} (jgv : JanusGraphAsyncVertexWriter α) (v : α)
    (hbuf : (jgv.inserts.len : Int) ≤ jgv.batchSize)
    (hch : ∀ d ∈ jgv.consumerChan, (d.len : Int) = jgv.batchSize + 1) :
    (Queue jgv v).1.batchSize = jgv.batchSize ∧
    ((Queue jgv v).1.inserts.len : Int) ≤ jgv.batchSize ∧
    (∀ d ∈ (Queue jgv v).1.consumerChan, (d.len : Int) = jgv.batchSize + 1) := by
  rw [Queue_fst_eq]
  split
  · next hgt =>
    refine ⟨rfl, ?_, ?_⟩
    · simp only [Slice.len, Slice.elems, List.length_nil, Nat.cast_zero]
      simp only [Slice.len] at hbuf
      omega
    · intro d hd
      simp only [List.mem_append, List.mem_singleton] at hd
      rcases hd with hd | rfl
      · exact hch d hd
      · simp only [Slice.len, Slice.elems, List.length_append, List.length_singleton,
          Nat.cast_add, Nat.cast_one] at hbuf hgt ⊢
        omega
  · next hle =>
    refine ⟨rfl, ?_, hch⟩
    simp only [Slice.len, Slice.elems, List.length_append, List.length_singleton,
      Nat.cast_add, Nat.cast_one] at hle ⊢
    omega

theorem queueAll_full_batches {α : Type} (vs : List α) :
    ∀ jgv : JanusGraphAsyncVertexWriter α,
      (jgv.inserts.len : Int) ≤ jgv.batchSize →
      (∀ d ∈ jgv.consumerChan, (d.len : Int) = jgv.batchSize + 1) →
      (queueAll jgv vs).batchSize = jgv.batchSize ∧
      ((queueAll jgv vs).inserts.len : Int) ≤ jgv.batchSize ∧
      (∀ d ∈ (queueAll jgv vs).consumerChan, (d.len : Int) = jgv.batchSize + 1) := by
  induction vs with
  | nil => intro jgv hbuf hch; exact ⟨rfl, hbuf, hch⟩
  | cons v vs ih =>
    intro jgv hbuf hch
    obtain ⟨h1, h2, h3⟩ := Queue_full_batches jgv v hbuf hch
    rw [queueAll_cons]
    have := ih (Queue jgv v).1 (by rw [h1]; exact h2) (by rw [h1]; exact h3)
    rw [h1] at this
    exact this

theorem records_length {α : Type} (k : Int) (batches : List (Slice α))
    (h : ∀ d ∈ batches, (d.len : Int) = k) :
    ((records batches).length : Int) = batches.length * k := by
  induction batches with
  | nil => simp [records]
  | cons d ds ih =>
    have hd := h d (List.mem_cons_self _ _)
    have hds := ih (fun x hx => h x (List.mem_cons_of_mem _ hx))
    simp only [records, List.map_cons, List.flatten_cons, List.length_append, List.length_cons,
      Nat.cast_add, Nat.cast_one] at hds ⊢
    simp only [Slice.len] at hd
    rw [hds, hd]
    ring

theorem flatten_all_nil {α : Type} (callers : List (List α)) (h : ∀ c ∈ callers, c = []) :
    callers.flatten = [] := by
  induction callers with
  | nil => rfl
  | cons c cs ih =>
    rw [List.flatten_cons, h c (List.mem_cons_self _ _),
      ih (fun x hx => h x (List.mem_cons_of_mem _ hx))]
    rfl

/-- An interleaving holds every call of every caller exactly as often as it was issued. -/
theorem Interleaving.perm {α : Type} {callers : List (List α)} {calls : List α}
    (h : Interleaving callers calls) : calls.Perm callers.flatten := by
  induction h with
  | done callers hnil => rw [flatten_all_nil callers hnil]
  | call before after r c calls _ ih =>
    simp only [List.flatten_append, List.flatten_cons, List.cons_append] at ih ⊢
    exact (List.Perm.cons r ih).trans List.perm_middle.symm

theorem queueAll_traversalSource {α : Type} (vs : List α) :
    ∀ jgv : JanusGraphAsyncVertexWriter α,
      (queueAll jgv vs).traversalSource = jgv.traversalSource := by
  induction vs with
  | nil => intro jgv; rfl
  | cons v vs ih =>
    intro jgv
    rw [queueAll_cons, ih, Queue_fst_eq]
    split <;> rfl
/-! ## The contract of `Flush` -/

/-- C3: whenever `Flush` returns with no error, the wait-group counter of the state it leaves
is exactly zero and the buffer is empty. -/
theorem Flush_success_drained {α : Type} (sink : RemoteSink α) (st st1 : System α)
    (h : Flush sink st = some (st1, none)) :
    st1.jgv.writingInFlight = 0 ∧ st1.jgv.inserts.elems = [] ∧ st1.jgv.inserts.len = 0 := by
  have key : st1.jgv.writingInFlight = 0 ∧ st1.jgv.inserts.elems = [] := by
    rcases Flush_cases h with ⟨_, _, he⟩ | ⟨_, hl, hw, _⟩ | ⟨_, _, _, hw, _⟩ | ⟨e, _, _, _, _, he⟩
    · cases he
    · obtain ⟨h0, hk⟩ := Wait_some hw
      exact ⟨h0, by rw [hk.1]; exact List.length_eq_zero.mp hl⟩
    · obtain ⟨h0, hk⟩ := Wait_some hw
      exact ⟨h0, by rw [hk.1]; rfl⟩
    · cases he
  exact ⟨key.1, key.2, by simp [Slice.len, key.2]⟩

/-- C3, at a writer with `batchSize = 1` after three `Queue` calls: one batch is in the channel
and one record in the buffer when `Flush` is called. -/
theorem Flush_success_drained_witness :
    Flush sinkOk sampleQueued = some (sampleFlushed, none) ∧
    sampleFlushed.jgv.writingInFlight = 0 ∧ sampleFlushed.jgv.inserts.elems = [] ∧
    sampleFlushed.jgv.inserts.len = 0 :=
  ⟨by decide, Flush_success_drained sinkOk sampleQueued sampleFlushed (by decide)⟩

/-- C4: on a writer with a traversal source, `Flush` sends nothing on the channel (what the
channel holds afterwards is a tail of what it held), and the batches `Flush` itself hands to
the Remote Sink are the buffer, once, when it is not empty and none when it is empty; from a
state with sound accounting it returns.  With an empty buffer and a zero counter it returns no
error and the same state.  With `batchSize = 5` and A, B queued it writes the one batch [A, B]
and, the sink accepting it, returns no error. -/
theorem Flush_writes_buffer_once {α : Type} (sink : RemoteSink α) (st : System α)
    (hts : st.jgv.traversalSource ≠ none) :
    (∀ st1 err, Flush sink st = some (st1, err) →
      st1.jgv.consumerChan <:+ st.jgv.consumerChan ∧
      flushed st1 =
        flushed st ++ (if st.jgv.inserts.len ≠ 0 then [st.jgv.inserts.elems] else [])) ∧
    (Accounted st → ∃ st1 err, Flush sink st = some (st1, err) ∧ st1.jgv.consumerChan = []) ∧
    (st.jgv.inserts.len = 0 → st.jgv.writingInFlight = 0 → Flush sink st = some (st, none)) ∧
    (∀ A B : α, sink 0 [A, B] = none →
      Flush sink { NewJanusGraphAsyncVertexWriter 5 with
          jgv := queueAll (NewJanusGraphAsyncVertexWriter 5).jgv [A, B] }
        = some ({ NewJanusGraphAsyncVertexWriter 5 with
            jgv := { (NewJanusGraphAsyncVertexWriter 5).jgv with inserts := Slice.nil }
            remote := [(Caller.flush, [A, B])] }, none)) := by
  refine ⟨?_, ?_, ?_, ?_⟩
  · intro st1 err h
    exact ⟨(Flush_effect hts h).1, (Flush_effect hts h).2.1⟩
  · intro hacc
    obtain ⟨st1, err, h⟩ := accounted_Flush_returns sink hacc
    exact ⟨st1, err, h,
      (accounted_idle_of_zero (accounted_Flush hacc h) (Flush_effect hts h).2.2).1⟩
  · intro hl h0
    rw [Flush_empty sink st hts hl, Wait_of_zero sink st h0]
    rfl
  · intro A B hs
    have hq : ({ NewJanusGraphAsyncVertexWriter 5 with
          jgv := queueAll (NewJanusGraphAsyncVertexWriter 5).jgv [A, B] } : System α)
        = { NewJanusGraphAsyncVertexWriter 5 with
            jgv := { (NewJanusGraphAsyncVertexWriter 5).jgv with inserts := Slice.mk [A, B] } } :=
      rfl
    rw [hq, Flush_write_ok sink
      { NewJanusGraphAsyncVertexWriter 5 with
        jgv := { (NewJanusGraphAsyncVertexWriter 5).jgv with inserts := Slice.mk [A, B] } }
      (by simp [NewJanusGraphAsyncVertexWriter])
      (by simp [NewJanusGraphAsyncVertexWriter, Slice.len, Slice.elems]) hs]
    rw [Wait_of_zero sink _ (by simp [NewJanusGraphAsyncVertexWriter, afterWriteOk])]
    simp [NewJanusGraphAsyncVertexWriter, afterWriteOk, Slice.elems]

/-- C4, at a writer with `batchSize = 5` and two records queued. -/
theorem Flush_writes_buffer_once_witness :
    sampleBuffered.jgv.traversalSource ≠ none ∧
    ∃ st1 err, Flush sinkOk sampleBuffered = some (st1, err) ∧ st1.jgv.consumerChan = [] :=
  ⟨by decide,
   (Flush_writes_buffer_once sinkOk sampleBuffered (by decide)).2.1 (by
      refine ⟨by decide, by decide, by decide, ?_⟩
      intro d hd
      cases hd)⟩

/-- C5: without a traversal source `Flush` returns the not-initialized error and the state is
untouched (nothing handed to the Remote Sink; buffer, channel and counter as before); with a
traversal source, an error returned by `Flush` is the error with which the Remote Sink failed
the synchronous write of the non-empty buffer. -/
theorem Flush_error_only_from_write {α : Type} (sink : RemoteSink α) (st : System α) :
    (st.jgv.traversalSource = none →
      Flush sink st = some (st, some errNotInitialized)) ∧
    (st.jgv.traversalSource ≠ none →
      ∀ st1 e, Flush sink st = some (st1, some e) →
        st.jgv.inserts.len ≠ 0 ∧ sink st.remote.length st.jgv.inserts.elems = some e) := by
  refine ⟨Flush_uninitialized sink st, ?_⟩
  intro hts st1 e h
  rcases Flush_cases h with ⟨hn, _, _⟩ | ⟨_, _, _, he⟩ | ⟨_, _, _, _, he⟩ | ⟨e1, _, hl, hs, _, he⟩
  · exact absurd hn hts
  · cases he
  · cases he
  · cases he; exact ⟨hl, hs⟩

/-- C6, as amended: on a writer with a traversal source and a non-empty buffer whose
synchronous write the Remote Sink fails with `e`, whenever `Flush` returns it returns exactly
`e`, the buffer is what it was, the counter is zero, and a following `Flush` that returns has
handed the same records to the Remote Sink again.  `Flush` does return when the accounting of
the wait group is sound (as in every state reached by `Queue`, the steps of the background
goroutine and `Flush`) or when the counter is zero. -/
theorem Flush_write_failure_keeps_buffer {α : Type} (sink : RemoteSink α) (st : System α)
    (e : GoError) (hts : st.jgv.traversalSource ≠ none) (hlen : st.jgv.inserts.len ≠ 0)
    (hsink : sink st.remote.length st.jgv.inserts.elems = some e) :
    (∀ st1 err, Flush sink st = some (st1, err) →
      err = some e ∧
      st1.jgv.inserts = st.jgv.inserts ∧
      st1.jgv.writingInFlight = 0 ∧
      ∀ st2 err2, Flush sink st1 = some (st2, err2) →
        flushed st2 = flushed st ++ [st.jgv.inserts.elems, st.jgv.inserts.elems]) ∧
    (Accounted st ∨ st.jgv.writingInFlight = 0 →
      ∃ st1, Flush sink st = some (st1, some e) ∧
        ∃ st2 err2, Flush sink st1 = some (st2, err2)) := by
  have hflush : Flush sink st = (Wait sink (afterWriteErr st e)).map (fun st1 => (st1, some e)) :=
    Flush_write_err sink st e hts hlen hsink
  have hcond : ∀ st1 err, Flush sink st = some (st1, err) →
      err = some e ∧ st1.jgv.inserts = st.jgv.inserts ∧ st1.jgv.writingInFlight = 0 ∧
      st1.jgv.traversalSource ≠ none := by
    intro st1 err hf
    rw [hflush] at hf
    simp only [Option.map_eq_some', Prod.mk.injEq] at hf
    obtain ⟨w, hw, rfl, rfl⟩ := hf
    obtain ⟨h0, hk⟩ := Wait_some hw
    exact ⟨rfl, hk.1, h0, by rw [hk.2.1]; exact hts⟩
  refine ⟨?_, ?_⟩
  · intro st1 err hf
    obtain ⟨he, hins, h0, hts1⟩ := hcond st1 err hf
    refine ⟨he, hins, h0, ?_⟩
    intro st2 err2 hf2
    rw [(Flush_effect hts1 hf2).2.1, (Flush_effect hts hf).2.1, hins]
    simp [hlen]
  · intro hsound
    have hret : ∃ st1, Wait sink (afterWriteErr st e) = some st1 ∧
        (Accounted st1 ∨ st1.jgv.writingInFlight = 0) := by
      rcases hsound with hacc | h0
      · obtain ⟨st1, hw, hacc1⟩ := accounted_Wait sink (accounted_afterWriteErr hacc e)
        exact ⟨st1, hw, Or.inl hacc1⟩
      · have h1 : (afterWriteErr st e).jgv.writingInFlight = 0 := by
          simp only [afterWriteErr]; omega
        exact ⟨_, Wait_of_zero sink _ h1, Or.inr h1⟩
    obtain ⟨st1, hw, _⟩ := hret
    have hf : Flush sink st = some (st1, some e) := by rw [hflush, hw]; rfl
    obtain ⟨_, hins, h0, hts1⟩ := hcond st1 _ hf
    refine ⟨st1, hf, ?_⟩
    have hlen1 : st1.jgv.inserts.len ≠ 0 := by rw [hins]; exact hlen
    cases hs1 : sink st1.remote.length st1.jgv.inserts.elems with
    | none =>
      refine ⟨afterWriteOk st1, none, ?_⟩
      rw [Flush_write_ok sink st1 hts1 hlen1 hs1,
        Wait_of_zero sink _ (by simp only [afterWriteOk]; omega)]
      rfl
    | some e1 =>
      refine ⟨afterWriteErr st1 e1, some e1, ?_⟩
      rw [Flush_write_err sink st1 e1 hts1 hlen1 hs1,
        Wait_of_zero sink _ (by simp only [afterWriteErr]; omega)]
      rfl

/-- C6, as amended, at a writer with `batchSize = 5`, two records queued and a sink that
fails. -/
theorem Flush_write_failure_keeps_buffer_witness :
    sampleBuffered.jgv.traversalSource ≠ none ∧ sampleBuffered.jgv.inserts.len ≠ 0 ∧
    sinkFail 9 sampleBuffered.remote.length sampleBuffered.jgv.inserts.elems
      = some (GoError.sinkError 9) ∧
    ∃ st1, Flush (sinkFail 9) sampleBuffered = some (st1, some (GoError.sinkError 9)) ∧
      ∃ st2 err2, Flush (sinkFail 9) st1 = some (st2, err2) :=
  ⟨by decide, by decide, rfl,
   (Flush_write_failure_keeps_buffer (sinkFail 9) sampleBuffered (GoError.sinkError 9)
     (by decide) (by decide) rfl).2 (Or.inr rfl)⟩

/-- C6 as stated fails: after the background goroutine has returned on `ctx.Done()` with the
batch [1, 2] still in the channel, the writer has a traversal source and the non-empty buffer
[3], the Remote Sink fails the synchronous write, and `Flush` does not return: the counter
stays at one and the caller is blocked in `Wait`, whatever the fuel. -/
theorem Flush_write_failure_blocked_counterexample :
    workerCancel sampleQueued = some sampleCancelled ∧
    sampleCancelled.jgv.traversalSource ≠ none ∧
    sampleCancelled.jgv.inserts = Slice.mk [3] ∧
    sampleCancelled.jgv.consumerChan = [Slice.mk [1, 2]] ∧
    sinkFail 9 sampleCancelled.remote.length sampleCancelled.jgv.inserts.elems
      = some (GoError.sinkError 9) ∧
    Flush (sinkFail 9) sampleCancelled = none ∧
    (afterWriteErr sampleCancelled (GoError.sinkError 9)).jgv.writingInFlight = 1 ∧
    (∀ n, waitFuel (sinkFail 9) n (afterWriteErr sampleCancelled (GoError.sinkError 9))
      = none) := by
  refine ⟨by decide, by decide, by decide, by decide, rfl, by decide, by decide, ?_⟩
  intro n
  cases n <;> rfl
/-! ## The wait-group counter -/

/-- C8: in every state reachable by `Queue` calls, receives and completed writes of the
background goroutine and `Flush` calls, the counter is the number of batches in the channel
plus the number being written; so it is zero exactly when nothing waits and nothing is being
written, it is never negative, and completing a write takes one off the counter whatever the
Remote Sink answers (the writer left by a failed write is the one left by a successful one). -/
theorem reachable_counter_accounts {α : Type} (sink : RemoteSink α) (st : System α)
    (h : Reachable sink st) :
    st.jgv.writingInFlight = (st.jgv.consumerChan.length : Int) + (writingCount st : Int) ∧
    (st.jgv.writingInFlight = 0 ↔ st.jgv.consumerChan = [] ∧ writingCount st = 0) ∧
    0 ≤ st.jgv.writingInFlight ∧
    (∀ st1, workerComplete sink st = some st1 →
      st1.jgv.writingInFlight = st.jgv.writingInFlight - 1 ∧
      ∀ (sink2 : RemoteSink α) (st2 : System α), workerComplete sink2 st = some st2 →
        st2.jgv = st1.jgv) := by
  have hacc := reachable_accounted h
  refine ⟨hacc.1, ?_, ?_, ?_⟩
  · constructor
    · intro h0
      have := accounted_idle_of_zero hacc h0
      exact ⟨this.1, by simp [writingCount, this.2]⟩
    · rintro ⟨hc, hw⟩
      rw [hacc.1, hc, hw]; rfl
  · rw [hacc.1]; positivity
  · intro st1 h1
    obtain ⟨d, hw, rfl⟩ := workerComplete_some h1
    refine ⟨rfl, ?_⟩
    intro sink2 st2 h2
    obtain ⟨d2, hw2, rfl⟩ := workerComplete_some h2
    rfl

/-- C8, at the state in which the background goroutine has received the only batch: the
counter is one, the channel is empty, one batch is being written. -/
theorem reachable_counter_accounts_witness :
    Reachable sinkOk sampleWriting ∧
    sampleWriting.jgv.writingInFlight
      = (sampleWriting.jgv.consumerChan.length : Int) + (writingCount sampleWriting : Int) ∧
    sampleWriting.jgv.writingInFlight = 1 :=
  have hreach : Reachable sinkOk sampleWriting :=
    Reachable.step _ _
      (Reachable.step _ _ (Reachable.init 0) (Step.queue (NewJanusGraphAsyncVertexWriter 0) 7))
      (Step.recv _ _ (by decide))
  ⟨hreach, (reachable_counter_accounts sinkOk sampleWriting hreach).1, rfl⟩

/-! ## The values on the channel -/

/-- C10: whatever the state and the batch size (zero and negative ones included), what `Queue`
sends on the channel is at most one value, it is not nil and it holds at least one record (the
buffer with the new record); the background goroutine receiving it goes on to write it and
does not return.  In the reachable states no value in the channel is nil and the goroutine has
not returned. -/
theorem Queue_sends_nonnil {α : Type} (jgv : JanusGraphAsyncVertexWriter α) (r : α) :
    (∃ sent, (Queue jgv r).1.consumerChan = jgv.consumerChan ++ sent ∧ sent.length ≤ 1 ∧
      ∀ d ∈ sent, d.isNil = false ∧ 1 ≤ d.len ∧ d.elems = jgv.inserts.elems ++ [r] ∧
        ∀ (st : System α) (rest : List (Slice α)),
          st.worker = Worker.idle → st.jgv.consumerChan = d :: rest →
          ∃ st1, workerRecv st = some st1 ∧ st1.worker = Worker.writing d) ∧
    (∀ (sink : RemoteSink α) (st : System α), Reachable sink st →
      st.worker ≠ Worker.stopped ∧ ∀ d ∈ st.jgv.consumerChan, d.isNil = false) := by
  constructor
  · rw [Queue_fst_eq]
    split
    · refine ⟨[Slice.mk (jgv.inserts.elems ++ [r])], rfl, le_refl _, ?_⟩
      intro d hd
      rw [List.mem_singleton] at hd
      subst hd
      refine ⟨rfl, by simp [Slice.len, Slice.elems], rfl, ?_⟩
      intro st rest hw hc
      refine ⟨{ st with
          jgv := { st.jgv with consumerChan := rest }
          worker := Worker.writing (Slice.mk (jgv.inserts.elems ++ [r])) }, ?_, rfl⟩
      simp [workerRecv, hw, hc, Slice.isNil]
    · exact ⟨[], by simp, by simp, by simp⟩
  · intro sink st h
    have hacc := reachable_accounted h
    exact ⟨hacc.2.2.1, hacc.2.1⟩

/-- C7, on the code: `Queue` on a writer whose traversal source is nil accepts the record and
returns no error, where `Flush` on the same writer returns the not-initialized error. -/
theorem Queue_uninitialized_accepts :
    sampleUninitialized.jgv.traversalSource = none ∧
    Queue sampleUninitialized.jgv 7
      = ({ sampleUninitialized.jgv with inserts := Slice.mk [7] }, none) ∧
    Flush sinkOk sampleUninitialized = some (sampleUninitialized, some errNotInitialized) := by
  refine ⟨rfl, by decide, by decide⟩
/-! ## Batches of a sequence of `Queue` calls -/

/-- C2, as amended: for `batchSize = s ≥ 0` and `N > s` records queued on a fresh writer, the
number of batches sent on the channel is `N / (s + 1)` rounded down, hence at most
`⌈N / (s + 1)⌉`; every batch has `s + 1` records; and the batches in dispatch order followed by
the records still in the buffer are the input sequence.  The batches alone are the input
sequence exactly when `s + 1` divides `N`. -/
theorem queueAll_batches {α : Type} (s : Int) (xs : List α) (hs : 0 ≤ s) :
    ((queueAll (NewJanusGraphAsyncVertexWriter s).jgv xs).consumerChan.length : Int)
      ≤ ⌈(xs.length : ℚ) / ((s : ℚ) + 1)⌉ ∧
    records (queueAll (NewJanusGraphAsyncVertexWriter s).jgv xs).consumerChan
      ++ (queueAll (NewJanusGraphAsyncVertexWriter s).jgv xs).inserts.elems = xs ∧
    ((queueAll (NewJanusGraphAsyncVertexWriter s).jgv xs).consumerChan.length : Int)
      = (xs.length : Int) / (s + 1) ∧
    ((queueAll (NewJanusGraphAsyncVertexWriter s).jgv xs).inserts.len : Int)
      = (xs.length : Int) % (s + 1) ∧
    (∀ d ∈ (queueAll (NewJanusGraphAsyncVertexWriter s).jgv xs).consumerChan,
      (d.len : Int) = s + 1) ∧
    (records (queueAll (NewJanusGraphAsyncVertexWriter s).jgv xs).consumerChan = xs
      ↔ (s + 1) ∣ (xs.length : Int)) := by
  obtain ⟨w, hw⟩ : ∃ w, queueAll (NewJanusGraphAsyncVertexWriter (α := α) s).jgv xs = w :=
    ⟨_, rfl⟩
  have hrec : records w.consumerChan ++ w.inserts.elems = xs := by
    have := queueAll_records xs (NewJanusGraphAsyncVertexWriter (α := α) s).jgv
    rw [hw] at this
    rw [this]
    simp [NewJanusGraphAsyncVertexWriter, records, Slice.elems_mk]
  have hfull : w.batchSize = s ∧ (w.inserts.len : Int) ≤ s ∧
      ∀ d ∈ w.consumerChan, (d.len : Int) = s + 1 := by
    have := queueAll_full_batches xs (NewJanusGraphAsyncVertexWriter (α := α) s).jgv
      (by simpa [NewJanusGraphAsyncVertexWriter, Slice.len_eq, Slice.elems_mk] using hs)
      (by simp [NewJanusGraphAsyncVertexWriter])
    rw [hw] at this
    exact this
  rw [hw]
  obtain ⟨_, hbuf, hch⟩ := hfull
  have hlen := records_length (s + 1) w.consumerChan hch
  have htot : (xs.length : Int) = w.consumerChan.length * (s + 1) + w.inserts.len := by
    have := congrArg List.length hrec
    simp only [List.length_append] at this
    rw [← hlen, Slice.len_eq]
    exact_mod_cast this.symm
  have hdm : (xs.length : Int) / (s + 1) = w.consumerChan.length ∧
      (xs.length : Int) % (s + 1) = w.inserts.len := by
    rw [Int.ediv_emod_unique (by omega)]
    refine ⟨?_, by positivity, by omega⟩
    rw [htot]; ring
  refine ⟨?_, hrec, hdm.1.symm, hdm.2.symm, hch, ?_⟩
  · have hpos : (0 : ℚ) < (s : ℚ) + 1 := by
      have : (0 : ℚ) ≤ (s : ℚ) := by exact_mod_cast hs
      linarith
    have hle : ((w.consumerChan.length : Int) : ℚ) ≤ (xs.length : ℚ) / ((s : ℚ) + 1) := by
      rw [le_div_iff₀ hpos]
      have h1 : (w.consumerChan.length : Int) * (s + 1) ≤ (xs.length : Int) := by
        rw [htot]
        have : (0 : Int) ≤ (w.inserts.len : Int) := by positivity
        omega
      exact_mod_cast h1
    exact Int.cast_le.mp (hle.trans (Int.le_ceil _))
  · rw [Int.dvd_iff_emod_eq_zero, hdm.2]
    constructor
    · intro h
      have h2 : w.inserts.elems = [] := by
        have := hrec
        rw [← h] at this
        simpa [records] using this
      simp [Slice.len_eq, h2]
    · intro h
      have h2 : w.inserts.elems = [] := by
        have : w.inserts.len = 0 := by exact_mod_cast h
        exact List.length_eq_zero.mp this
      rw [h2, List.append_nil] at hrec
      simpa [records] using hrec

/-- C2, as amended, at `batchSize = 1` and three records. -/
theorem queueAll_batches_witness :
    (0 : Int) ≤ 1 ∧
    ((queueAll (NewJanusGraphAsyncVertexWriter (α := Nat) 1).jgv [10, 11, 12]).consumerChan.length
        : Int) ≤ ⌈(([10, 11, 12] : List Nat).length : ℚ) / (((1 : Int) : ℚ) + 1)⌉ ∧
    records (queueAll (NewJanusGraphAsyncVertexWriter (α := Nat) 1).jgv [10, 11, 12]).consumerChan
      ++ (queueAll (NewJanusGraphAsyncVertexWriter (α := Nat) 1).jgv [10, 11, 12]).inserts.elems
      = [10, 11, 12] :=
  ⟨by decide, (queueAll_batches 1 [10, 11, 12] (by decide)).1,
   (queueAll_batches 1 [10, 11, 12] (by decide)).2.1⟩

/-- C2 as stated fails: with `batchSize = 1` and the three records 10, 11, 12 (so `N > s`), one
batch is sent, and the batches sent are [10, 11], not the input sequence: 12 is still in the
buffer. -/
theorem queueAll_concat_counterexample :
    (0 : Int) ≤ 1 ∧ (1 : Int) < (([10, 11, 12] : List Nat).length : Int) ∧
    (queueAll (NewJanusGraphAsyncVertexWriter (α := Nat) 1).jgv [10, 11, 12]).consumerChan
      = [Slice.mk [10, 11]] ∧
    (queueAll (NewJanusGraphAsyncVertexWriter (α := Nat) 1).jgv [10, 11, 12]).inserts
      = Slice.mk [12] ∧
    records (queueAll (NewJanusGraphAsyncVertexWriter (α := Nat) 1).jgv [10, 11, 12]).consumerChan
      ≠ [10, 11, 12] := by
  refine ⟨by decide, by decide, by decide, by decide, by decide⟩

/-! ## Interleaved callers -/

/-- C9: for callers whose `Queue` calls are interleaved in any way on a fresh writer, followed
by a `Flush` that returns no error, the records of the batches sent on the channel together
with those of the batch written by `Flush` are, as a multiset, the records queued by all the
callers; each record occurs as often as it was queued.  (In order, they are the interleaved
sequence itself.) -/
theorem interleaved_Queue_then_Flush {α : Type} [DecidableEq α] (sink : RemoteSink α) (s : Int)
    (callers : List (List α)) (calls : List α) (st1 : System α)
    (hi : Interleaving callers calls)
    (hf : Flush sink { NewJanusGraphAsyncVertexWriter s with
        jgv := queueAll (NewJanusGraphAsyncVertexWriter s).jgv calls } = some (st1, none)) :
    ((records (queueAll (NewJanusGraphAsyncVertexWriter s).jgv calls).consumerChan
        : Multiset α) + ((flushed st1).flatten : Multiset α)
      = (callers.flatten : Multiset α)) ∧
    (∀ r : α,
      (records (queueAll (NewJanusGraphAsyncVertexWriter s).jgv calls).consumerChan).count r
        + (flushed st1).flatten.count r = callers.flatten.count r) ∧
    records (queueAll (NewJanusGraphAsyncVertexWriter s).jgv calls).consumerChan
      ++ (flushed st1).flatten = calls := by
  have hrec : records (queueAll (NewJanusGraphAsyncVertexWriter s).jgv calls).consumerChan
      ++ (queueAll (NewJanusGraphAsyncVertexWriter s).jgv calls).inserts.elems = calls := by
    rw [queueAll_records calls (NewJanusGraphAsyncVertexWriter (α := α) s).jgv]
    simp [NewJanusGraphAsyncVertexWriter, records, Slice.elems_mk]
  have hts : (queueAll (NewJanusGraphAsyncVertexWriter (α := α) s).jgv calls).traversalSource
      ≠ none := by
    rw [queueAll_traversalSource]
    simp [NewJanusGraphAsyncVertexWriter]
  obtain ⟨w, hw⟩ : ∃ w, queueAll (NewJanusGraphAsyncVertexWriter (α := α) s).jgv calls = w :=
    ⟨_, rfl⟩
  rw [hw] at hf hrec hts ⊢
  have hfl : (flushed st1).flatten = w.inserts.elems := by
    have hts2 : ({ NewJanusGraphAsyncVertexWriter s with jgv := w } : System α).jgv.traversalSource
        ≠ none := hts
    have hfx := (Flush_effect hts2 hf).2.1
    have h0 : flushed ({ NewJanusGraphAsyncVertexWriter s with jgv := w } : System α) = [] := rfl
    rw [hfx, h0]
    by_cases hl : w.inserts.len = 0
    · have : w.inserts.elems = [] := List.length_eq_zero.mp hl
      simp [hl, this]
    · simp [hl]
  have hseq : records w.consumerChan ++ (flushed st1).flatten = calls := by
    rw [hfl]; exact hrec
  have hperm := hi.perm
  refine ⟨?_, ?_, hseq⟩
  · rw [Multiset.coe_add, hseq]
    exact Multiset.coe_eq_coe.mpr hperm
  · intro r
    rw [← List.count_append, hseq]
    exact hperm.count_eq r

/-- C9, at two callers queueing 1, 2 and 3, interleaved as 1, 3, 2, with `batchSize = 1`: the
batch [1, 3] goes through the channel and [2] is written by `Flush`. -/
theorem interleaved_Queue_then_Flush_witness :
    Interleaving [[1, 2], [3]] [1, 3, 2] ∧
    Flush sinkOk { NewJanusGraphAsyncVertexWriter (α := Nat) 1 with
        jgv := queueAll (NewJanusGraphAsyncVertexWriter (α := Nat) 1).jgv [1, 3, 2] }
      = some (sampleInterleaved, none) ∧
    ((records (queueAll (NewJanusGraphAsyncVertexWriter (α := Nat) 1).jgv [1, 3, 2]).consumerChan
        : Multiset Nat) + ((flushed sampleInterleaved).flatten : Multiset Nat)
      = (([[1, 2], [3]] : List (List Nat)).flatten : Multiset Nat)) :=
  have hi : Interleaving [[1, 2], [3]] [1, 3, 2] :=
    Interleaving.call [] [[3]] 1 [2] [3, 2]
      (Interleaving.call [[2]] [] 3 [] [2]
        (Interleaving.call [] [[]] 2 [] []
          (Interleaving.done [[], []] (by decide))))
  ⟨hi, by decide,
   (interleaved_Queue_then_Flush sinkOk 1 [[1, 2], [3]] [1, 3, 2] sampleInterleaved
      hi (by decide)).1⟩
end KubeHound
